import Mathlib

/-!
Verification of the tilal-backend task lifecycle engine.

This file shallowly embeds the data model and the controller operations of
the repository (Mongoose models `Task`, `Site`/`Section`, `Inventory`,
`Client`, `User`, and the handlers in `taskController.js` and
`deleteImageController.js`) as pure Lean functions over an explicit
database state, and proves or refutes the specified properties.

Modelling conventions:
* Mongo ObjectIds become `Nat` identifiers.
* Dates become integer millisecond timestamps; the "current time" is an
  explicit `now` parameter.
* JavaScript numbers become `Int` (timestamps, quantities) or `ℚ`
  (durations, costs); IEEE doubles are modelled by exact rationals.
* Each collection is a list of records; `Model.findById` becomes
  `findById`, and a persisted write becomes `setById`.
* `document.save()` and `Model.create` run the `pre("save")` hook
  (`Task.preSave`); `Model.findByIdAndUpdate` does not run it, matching
  Mongoose middleware semantics.
* Handlers return the resulting database state together with
  `Except ApiError payload`; a thrown error that reaches the handler's
  `catch` block is `ApiError.serverError` (HTTP 500), and the explicit
  4xx responses map to `notFound` / `forbidden` / `badRequest`.
-/

namespace Tilal

abbrev Id := Nat

inductive Role where
  | admin
  | worker
  | client
deriving DecidableEq, Repr

/-- The authenticated principal supplied by the auth middleware (`req.user`). -/
structure Principal where
  id : Id
  role : Role
deriving DecidableEq, Repr

inductive TaskStatus where
  | pending
  | assigned
  | inProgress
  | completed
  | review
  | rejected
deriving DecidableEq, Repr

inductive ApiError where
  | notFound (msg : String)
  | forbidden (msg : String)
  | badRequest (msg : String)
  | serverError (msg : String)
deriving DecidableEq, Repr

/-- `Client` record (the fields the task lifecycle touches). -/
structure ClientRec where
  id : Id
  totalTasks : Nat := 0
  completedTasks : Nat := 0
deriving DecidableEq, Repr

/-- `User` record; `completedTasks` models `workerDetails.completedTasks`. -/
structure UserRec where
  id : Id
  role : Role
  completedTasks : Nat := 0
deriving DecidableEq, Repr

/-- `Inventory` item: `quantity.current` and `quantity.minimum`. -/
structure InventoryItem where
  id : Id
  name : String
  current : Int
  minimum : Int
deriving DecidableEq, Repr

/-- A section reference image (embedded in `sectionSchema.referenceImages`).
`mediaType`, `format`, `duration` are optional because the embedded schema
in `Site.js` does not declare them while the controller still reads them. -/
structure RefImage where
  id : Id
  url : String
  cloudinaryId : String := ""
  caption : String := ""
  mediaType : Option String := none
  format : Option String := none
  duration : Option Int := none
  uploadedAt : Int := 0
  qtn : Nat := 1
  description : String := ""
deriving DecidableEq, Repr

/-- A reference image snapshotted onto a task at creation time
(`createTask` copies each field and tags `originalSectionId`). -/
structure SnapImage where
  url : String
  cloudinaryId : String
  caption : String
  mediaType : String
  format : Option String
  duration : Option Int
  uploadedAt : Int
  qtn : Nat
  description : String
  originalSectionId : Id
deriving DecidableEq, Repr

/-- JavaScript `x || d` for an optional string (`undefined` and `""` are falsy). -/
def jsOrStr (o : Option String) (d : String) : String :=
  match o with
  | some s => if s = "" then d else s
  | none => d

/-- JavaScript `x || d` for a `Nat` (`0` is falsy). -/
def jsOrNat (n : Nat) (d : Nat) : Nat :=
  if n = 0 then d else n

/-- JavaScript `x || null` for an optional integer (`0` is falsy). -/
def jsOrNullInt (o : Option Int) : Option Int :=
  match o with
  | some n => if n = 0 then none else some n
  | none => none

/-- The per-image copy performed by `createTask`'s snapshot loop:
`{ url, cloudinaryId, caption, mediaType: img.mediaType || "image", format,
duration, uploadedAt, qtn: img.qtn || 1, description, originalSectionId }`. -/
def copyRefImage (sectionId : Id) (img : RefImage) : SnapImage :=
  { url := img.url
    cloudinaryId := img.cloudinaryId
    caption := img.caption
    mediaType := jsOrStr img.mediaType "image"
    format := img.format
    duration := img.duration
    uploadedAt := img.uploadedAt
    qtn := jsOrNat img.qtn 1
    description := img.description
    originalSectionId := sectionId }

/-- An embedded section of a site (`sectionSchema` in `Site.js`). -/
structure Section where
  id : Id
  name : String
  area : Int := 0
  referenceImages : List RefImage := []
  status : String := "pending"
  lastTaskStatus : Option TaskStatus := none
  lastTaskDate : Option Int := none
  lastTaskId : Option Id := none
deriving DecidableEq, Repr

structure Site where
  id : Id
  client : Id
  sections : List Section := []
  totalTasks : Nat := 0
  completedTasks : Nat := 0
  lastVisit : Option Int := none
deriving DecidableEq, Repr

structure Coord where
  latitude : ℚ
  longitude : ℚ
deriving DecidableEq, Repr

structure LocationStamp where
  coordinates : Coord
  timestamp : Int
deriving DecidableEq, Repr

/-- A before/after media attachment on a task. -/
structure Attachment where
  id : Id
  url : String
  cloudinaryId : String := ""
  thumbnail : String := ""
  mediaType : String := "image"
  format : Option String := none
  duration : Option Int := none
  uploadedAt : Int := 0
  uploadedBy : Id := 0
  isVisibleToClient : Bool := false
deriving DecidableEq, Repr

structure Material where
  item : Option Id
  name : String := ""
  quantity : Int := 0
  unit : String := ""
  confirmed : Bool := false
deriving DecidableEq, Repr

structure Cost where
  labor : ℚ := 0
  materials : ℚ := 0
  total : ℚ := 0
deriving DecidableEq, Repr

structure Feedback where
  rating : Int
  comment : String := ""
  imageNumber : Option Int := none
  image : Option String := none
  cloudinaryId : Option String := none
  submittedAt : Int := 0
  isSatisfiedOnly : Bool := false
deriving DecidableEq, Repr

structure Task where
  id : Id
  title : String := ""
  description : String := ""
  site : Id
  sections : List Id := []
  client : Id
  worker : Option Id := none
  status : TaskStatus := .pending
  priority : String := "medium"
  category : String := "other"
  scheduledDate : Int := 0
  estimatedDuration : ℚ := 2
  actualDuration : ℚ := 0
  startLocation : Option LocationStamp := none
  endLocation : Option LocationStamp := none
  imagesBefore : List Attachment := []
  imagesAfter : List Attachment := []
  referenceImages : List SnapImage := []
  materials : List Material := []
  cost : Cost := {}
  startedAt : Option Int := none
  completedAt : Option Int := none
  feedback : Option Feedback := none
  notes : String := ""
deriving DecidableEq, Repr

/-- The persistent store: one list per collection. -/
structure DB where
  tasks : List Task := []
  sites : List Site := []
  clients : List ClientRec := []
  users : List UserRec := []
  inventory : List InventoryItem := []
deriving DecidableEq, Repr

/-- `Model.findById`: first record whose id matches. -/
def findById {α : Type} (getId : α → Id) : List α → Id → Option α
  | [], _ => none
  | x :: xs, i => if getId x = i then some x else findById getId xs i

/-- A persisted in-place update of the record(s) with the given id. -/
def setById {α : Type} (getId : α → Id) (f : α → α) (l : List α) (i : Id) : List α :=
  l.map fun x => if getId x = i then f x else x

/-- Persist a task document under its id (the write behind both
`task.save()` — after the caller applied the pre-save hook — and
`Task.findByIdAndUpdate`, which applies no hook). -/
def DB.putTask (db : DB) (taskId : Id) (t : Task) : DB :=
  { db with tasks := setById Task.id (fun _ => t) db.tasks taskId }

/-- `Math.round` (round half toward positive infinity). -/
def jsRound (x : ℚ) : Int := Int.floor (x + 1/2)

/-- The `taskSchema.pre("save")` hook: recompute `actualDuration` as
`(completedAt - startedAt)` in hours rounded to 2 decimals when both
timestamps are present, and always recompute `cost.total`. -/
def Task.preSave (t : Task) : Task :=
  let d : ℚ :=
    match t.startedAt, t.completedAt with
    | some s, some c => (jsRound (((c - s : Int) : ℚ) / (1000 * 60 * 60) * 100) : ℚ) / 100
    | _, _ => t.actualDuration
  { t with
    actualDuration := d
    cost := { t.cost with total := t.cost.labor + t.cost.materials } }

/-- `inventorySchema.methods.deduct`: throws `'Insufficient stock'` when the
requested amount exceeds the current quantity, otherwise subtracts and saves. -/
def InventoryItem.deduct (it : InventoryItem) (amount : Int) :
    Except String InventoryItem :=
  if it.current < amount then .error "Insufficient stock"
  else .ok { it with current := it.current - amount }

/-- `inventorySchema.methods.restock`. -/
def InventoryItem.restock (it : InventoryItem) (amount : Int) (now : Int) :
    InventoryItem × Int :=
  ({ it with current := it.current + amount }, now)

/-- `siteSchema.methods.updateSectionLastTask`: look the section up by id;
when it is missing the method returns without saving, otherwise it stamps
`lastTaskStatus`, `lastTaskDate`, `lastTaskId` and saves the site. -/
def updateSectionLastTask (s : Site) (sectionId : Id) (taskStatus : TaskStatus)
    (taskId : Id) (now : Int) : Site :=
  { s with
    sections := setById Section.id
      (fun sec => { sec with
        lastTaskStatus := some taskStatus
        lastTaskDate := some now
        lastTaskId := some taskId })
      s.sections sectionId }

/-- The inventory loop in `updateTask`'s first-assignment branch: for each
material that references an inventory item that exists, `deduct` the
quantity. Each successful deduction is persisted immediately
(`deduct` ends in `this.save()`); a thrown `'Insufficient stock'` stops the
loop, leaving the deductions already performed committed. -/
def deductMaterials (db : DB) : List Material → DB × Option String
  | [] => (db, none)
  | m :: rest =>
    match m.item with
    | none => deductMaterials db rest
    | some itemId =>
      match findById InventoryItem.id db.inventory itemId with
      | none => deductMaterials db rest
      | some it =>
        match it.deduct m.quantity with
        | .error e => (db, some e)
        | .ok it' =>
          deductMaterials
            { db with inventory := setById InventoryItem.id (fun _ => it') db.inventory itemId }
            rest

/-- The completed-status block of `updateTask`: `$inc` the client's, the
worker's and the site's `completedTasks`, set `Site.lastVisit`, then re-read
the site and stamp the last-task summary of every section of the task. -/
def completionCascade (db : DB) (task : Task) (now : Int) : DB :=
  let dbA := { db with
    clients := setById ClientRec.id
      (fun c => { c with completedTasks := c.completedTasks + 1 })
      db.clients task.client }
  let dbB :=
    match task.worker with
    | some w => { dbA with
        users := setById UserRec.id
          (fun u => { u with completedTasks := u.completedTasks + 1 })
          dbA.users w }
    | none => dbA
  let dbC := { dbB with
    sites := setById Site.id
      (fun s => { s with completedTasks := s.completedTasks + 1, lastVisit := some now })
      dbB.sites task.site }
  match findById Site.id dbC.sites task.site with
  | some site =>
    let site' := task.sections.foldl
      (fun s sid => updateSectionLastTask s sid TaskStatus.completed task.id now) site
    { dbC with sites := setById Site.id (fun _ => site') dbC.sites task.site }
  | none => dbC

/-- The rejected-status block of `updateTask`: stamp the last-task summary
of every section of the task (no counters are touched). -/
def rejectionCascade (db : DB) (task : Task) (now : Int) : DB :=
  match findById Site.id db.sites task.site with
  | some site =>
    let site' := task.sections.foldl
      (fun s sid => updateSectionLastTask s sid TaskStatus.rejected task.id now) site
    { db with sites := setById Site.id (fun _ => site') db.sites task.site }
  | none => db

/-- The `PUT /api/v1/tasks/:id` body: the optional fields of `req.body` that
the handler inspects, applied by `findByIdAndUpdate` as a `$set`. -/
structure UpdateBody where
  worker : Option Id := none
  status : Option TaskStatus := none
  completedAt : Option Int := none
  title : Option String := none
  cost : Option Cost := none
deriving Repr

/-- `Task.findByIdAndUpdate(id, req.body)`: set exactly the paths present in
the body. No `pre("save")` hook runs on this path. -/
def applyBody (t : Task) (b : UpdateBody) : Task :=
  { t with
    worker := match b.worker with | some w => some w | none => t.worker
    status := b.status.getD t.status
    completedAt := match b.completedAt with | some c => some c | none => t.completedAt
    title := b.title.getD t.title
    cost := b.cost.getD t.cost }

/-- `updateTask` (`PUT /api/v1/tasks/:id`). Mirrors the handler:
1. 404 when the task is missing; 403 when a worker caller is not the
   assigned worker;
2. when the body carries a worker and the task has none, deduct every
   material from inventory (each deduction saved as it happens, a failure
   aborting with the thrown error) and force `status = "assigned"`;
3. when the body marks a not-yet-completed task completed, stamp
   `completedAt`, `$inc` the client / worker / site `completedTasks`
   counters, set `Site.lastVisit`, and stamp every task section's
   last-task summary;
4. when the body marks a not-yet-rejected task rejected, stamp every task
   section's last-task summary;
5. persist the body through `findByIdAndUpdate` (no pre-save hook). -/
def updateTask (db : DB) (user : Principal) (taskId : Id) (body : UpdateBody)
    (now : Int) : DB × Except ApiError Task :=
  match findById Task.id db.tasks taskId with
  | none => (db, .error (.notFound "Task not found"))
  | some task =>
    if user.role = Role.worker ∧ task.worker ≠ some user.id then
      (db, .error (.forbidden "Not authorized to update this task"))
    else
      let assigning := body.worker.isSome ∧ task.worker = none
      let step := if assigning then deductMaterials db task.materials else (db, none)
      match step.2 with
      | some msg => (step.1, .error (.serverError msg))
      | none =>
        let db1 := step.1
        let body1 := if assigning then { body with status := some TaskStatus.assigned } else body
        let completing := body1.status = some TaskStatus.completed ∧
          task.status ≠ TaskStatus.completed
        let body2 := if completing then { body1 with completedAt := some now } else body1
        let db2 := if completing then completionCascade db1 task now else db1
        let rejecting := body2.status = some TaskStatus.rejected ∧
          task.status ≠ TaskStatus.rejected
        let db3 := if rejecting then rejectionCascade db2 task now else db2
        let newTask := applyBody task body2
        (db3.putTask taskId newTask, .ok newTask)

/-- `completeTask` (`POST /api/v1/tasks/:id/complete`): 404 when missing,
500 when the task has no worker (`task.worker.toString()` throws), 403 when
the caller is not the assigned worker, 400 `"Task already completed"` when
the status is already `completed`; otherwise set status/`completedAt`,
record the optional GPS fix, and `save()` (running the pre-save hook).
No counter increments and no section propagation happen on this path. -/
def completeTask (db : DB) (user : Principal) (taskId : Id) (gps : Option Coord)
    (now : Int) : DB × Except ApiError Task :=
  match findById Task.id db.tasks taskId with
  | none => (db, .error (.notFound "Task not found"))
  | some task =>
    match task.worker with
    | none => (db, .error (.serverError "Cannot read properties of null"))
    | some w =>
      if w ≠ user.id then (db, .error (.forbidden "Not authorized"))
      else if task.status = TaskStatus.completed then
        (db, .error (.badRequest "Task already completed"))
      else
        let t' := Task.preSave { task with
          status := TaskStatus.completed
          completedAt := some now
          endLocation :=
            match gps with
            | some c => some { coordinates := c, timestamp := now }
            | none => task.endLocation }
        (db.putTask taskId t', .ok t')

/-- `startTask` (`POST /api/v1/tasks/:id/start`): 404 when missing, 500 when
the task has no worker, 403 when the caller is not the assigned worker;
otherwise — with no check of the current status — set
`status = "in-progress"`, overwrite `startedAt`, record the optional GPS
fix, and `save()`. -/
def startTask (db : DB) (user : Principal) (taskId : Id) (gps : Option Coord)
    (now : Int) : DB × Except ApiError Task :=
  match findById Task.id db.tasks taskId with
  | none => (db, .error (.notFound "Task not found"))
  | some task =>
    match task.worker with
    | none => (db, .error (.serverError "Cannot read properties of null"))
    | some w =>
      if w ≠ user.id then (db, .error (.forbidden "Not authorized"))
      else
        let t' := Task.preSave { task with
          status := TaskStatus.inProgress
          startedAt := some now
          startLocation :=
            match gps with
            | some c => some { coordinates := c, timestamp := now }
            | none => task.startLocation }
        (db.putTask taskId t', .ok t')

/-- The `POST /api/v1/tasks` body of the snapshotting `createTask` variant
(worker required at creation). -/
structure CreateBody where
  title : String
  description : String
  site : Id
  sections : List Id
  client : Id
  scheduledDate : Int
  priority : Option String := none
  category : Option String := none
  estimatedDuration : Option ℚ := none
  materials : List Material := []
  notes : Option String := none
  worker : Id
deriving Repr

/-- `createTask` (snapshot variant): validate the required fields, the site
and that each requested section id belongs to the site; copy the reference
images of every selected section — iterating `siteDoc.sections` in the
site's stored order — into an independent `referenceImages` list on the new
task; create the task with `status = "pending"` (`Task.create` runs the
pre-save hook). -/
def createTask (db : DB) (body : CreateBody) (newTaskId : Id) :
    DB × Except ApiError Task :=
  if body.title = "" ∨ body.description = "" then
    (db, .error (.badRequest "Please provide all required fields"))
  else
    match findById Site.id db.sites body.site with
    | none => (db, .error (.notFound "Site not found"))
    | some siteDoc =>
      let invalidSections := body.sections.filter
        (fun sid => ¬ siteDoc.sections.any (fun sec => sec.id = sid))
      let validSections := siteDoc.sections.filter
        (fun sec => body.sections.contains sec.id)
      if ¬ invalidSections.isEmpty then
        (db, .error (.notFound "One or more sections not found in this site"))
      else
        let referenceImages := validSections.flatMap
          (fun sec => sec.referenceImages.map (copyRefImage sec.id))
        let task := Task.preSave {
          id := newTaskId
          title := body.title
          description := body.description
          site := body.site
          worker := some body.worker
          sections := validSections.map Section.id
          client := body.client
          scheduledDate := body.scheduledDate
          priority := jsOrStr body.priority "medium"
          category := jsOrStr body.category "other"
          estimatedDuration := body.estimatedDuration.getD 2
          materials := body.materials
          notes := (body.notes.getD "")
          status := TaskStatus.pending
          referenceImages := referenceImages }
        ({ db with tasks := db.tasks ++ [task] }, .ok task)

/-- `task.images[imageType]`: only the `before` and `after` keys exist. -/
def getSlot (t : Task) (imageType : String) : Option (List Attachment) :=
  if imageType = "before" then some t.imagesBefore
  else if imageType = "after" then some t.imagesAfter
  else none

def setSlot (t : Task) (imageType : String) (l : List Attachment) : Task :=
  if imageType = "before" then { t with imagesBefore := l }
  else if imageType = "after" then { t with imagesAfter := l }
  else t

/-- A value of `req.body.isVisibleToClient`: multipart form fields arrive as
strings, JSON bodies as booleans. -/
inductive VisParam where
  | str (s : String)
  | flag (b : Bool)
deriving DecidableEq, Repr

/-- `const { isVisibleToClient = true } = req.body` followed by
`isVisibleToClient === "true" || isVisibleToClient === true`. -/
def visValue : Option VisParam → Bool
  | some (.str s) => s = "true"
  | some (.flag b) => b
  | none => true

/-- A file record produced by the Cloudinary upload middleware. -/
structure FileUpload where
  url : String
  cloudinaryId : String
  resourceType : String
  format : Option String := none
  duration : Option Int := none
deriving DecidableEq, Repr

/-- `uploadTaskImages` (`POST /api/v1/tasks/:id/images`): 404 when the task
is missing, 403 when a worker caller is not the assigned worker, 400 when
the slot is not before/after or no files were uploaded; otherwise append
one attachment per file to the named slot (subdocument ids assigned from
`nextId` on) and `save()`. -/
def uploadTaskImages (db : DB) (user : Principal) (taskId : Id)
    (imageType : String) (vis : Option VisParam) (files : List FileUpload)
    (nextId : Id) (now : Int) : DB × Except ApiError Task :=
  match findById Task.id db.tasks taskId with
  | none => (db, .error (.notFound "Task not found"))
  | some task =>
    if user.role = Role.worker ∧ task.worker ≠ some user.id then
      (db, .error (.forbidden "Not authorized to upload images for this task"))
    else if ¬ (imageType = "before" ∨ imageType = "after") then
      (db, .error (.badRequest "Invalid image type. Must be: before or after"))
    else if files.isEmpty then
      (db, .error (.badRequest "No files uploaded"))
    else
      let visFlag := visValue vis
      let mediaObjects := files.enum.map fun f =>
        ({ id := nextId + f.1
           url := f.2.url
           cloudinaryId := f.2.cloudinaryId
           thumbnail := f.2.url
           mediaType := f.2.resourceType
           format := f.2.format
           duration := jsOrNullInt f.2.duration
           uploadedAt := now
           uploadedBy := user.id
           isVisibleToClient := visFlag } : Attachment)
      let slot := (getSlot task imageType).getD []
      let t' := Task.preSave (setSlot task imageType (slot ++ mediaObjects))
      (db.putTask taskId t', .ok t')

/-- `bulkUpdateImageVisibility` (`PUT /api/v1/tasks/:id/images/bulk-visibility`):
set `isVisibleToClient` on every attachment of the slot whose id is in
`imageIds` (ids with no matching attachment are silently ignored), count
the attachments actually touched, and `save()`. -/
def bulkUpdateImageVisibility (db : DB) (taskId : Id) (imageIds : List Id)
    (imageType : String) (isVisible : Bool) : DB × Except ApiError Nat :=
  match findById Task.id db.tasks taskId with
  | none => (db, .error (.notFound "Task not found"))
  | some task =>
    match getSlot task imageType with
    | none => (db, .error (.badRequest "Invalid image type"))
    | some arr =>
      let arr' := arr.map fun img =>
        if imageIds.contains img.id then { img with isVisibleToClient := isVisible } else img
      let updatedCount := (arr.filter fun img => imageIds.contains img.id).length
      let t' := Task.preSave (setSlot task imageType arr')
      (db.putTask taskId t', .ok updatedCount)

/-- The feedback submission body (`rating`, optional comment and image
number, optional uploaded photo as `(cloudinaryUrl, cloudinaryId)`). -/
structure FeedbackBody where
  rating : Int
  comment : Option String := none
  imageNumber : Option Int := none
  file : Option (String × String) := none
deriving Repr

/-- The `feedbackData` record built by `submitFeedback`: parsed rating,
comment defaulting to `""`, `imageNumber ? parseInt(imageNumber) : null`
(so 0 is dropped), the optional uploaded photo, and the timestamp. -/
def mkFeedback (body : FeedbackBody) (now : Int) : Feedback :=
  { rating := body.rating
    comment := body.comment.getD ""
    imageNumber := jsOrNullInt body.imageNumber
    image := body.file.map Prod.fst
    cloudinaryId := body.file.map Prod.snd
    submittedAt := now
    isSatisfiedOnly := false }

/-- The fixed five-star record written by `markSatisfied`. -/
def satisfiedFeedback (now : Int) : Feedback :=
  { rating := 5
    comment := "Client is satisfied with the work"
    isSatisfiedOnly := true
    submittedAt := now }

/-- `submitFeedback` (`POST /api/v1/tasks/:id/feedback`): 404 when the task
is missing, 400 unless `status == "completed"`, 403 when a client caller is
not the task's client; otherwise overwrite `task.feedback` with the new
record and `save()`. -/
def submitFeedback (db : DB) (user : Principal) (taskId : Id)
    (body : FeedbackBody) (now : Int) : DB × Except ApiError Feedback :=
  match findById Task.id db.tasks taskId with
  | none => (db, .error (.notFound "Task not found"))
  | some task =>
    if task.status ≠ TaskStatus.completed then
      (db, .error (.badRequest "Can only provide feedback for completed tasks"))
    else if user.role = Role.client ∧ task.client ≠ user.id then
      (db, .error (.forbidden "Not authorized to feedback this task"))
    else
      let fb := mkFeedback body now
      let t' := Task.preSave { task with feedback := some fb }
      (db.putTask taskId t', .ok fb)

/-- `markSatisfied` (`POST /api/v1/tasks/:id/satisfied`): same gating as
`submitFeedback`, writing a fixed five-star `isSatisfiedOnly` record. -/
def markSatisfied (db : DB) (user : Principal) (taskId : Id) (now : Int) :
    DB × Except ApiError Feedback :=
  match findById Task.id db.tasks taskId with
  | none => (db, .error (.notFound "Task not found"))
  | some task =>
    if task.status ≠ TaskStatus.completed then
      (db, .error (.badRequest "Can only mark satisfaction for completed tasks"))
    else if user.role = Role.client ∧ task.client ≠ user.id then
      (db, .error (.forbidden "Not authorized"))
    else
      let fb := satisfiedFeedback now
      let t' := Task.preSave { task with feedback := some fb }
      (db.putTask taskId t', .ok fb)

/-- `deleteSectionImage` in `deleteImageController.js`: remove one reference
image (located by id) from one section of one site; `false` when the site,
section or image is missing. Cloudinary deletion is best-effort and touches
no local state, so it is not modelled. -/
def deleteSectionImage (db : DB) (siteId sectionId imageId : Id) : DB × Bool :=
  match findById Site.id db.sites siteId with
  | none => (db, false)
  | some site =>
    match findById Section.id site.sections sectionId with
    | none => (db, false)
    | some sec0 =>
      if sec0.referenceImages.any (fun img => img.id = imageId) then
        let site' := { site with
          sections := setById Section.id
            (fun sec => { sec with
              referenceImages := sec.referenceImages.eraseP (fun img => img.id = imageId) })
            site.sections sectionId }
        ({ db with sites := setById Site.id (fun _ => site') db.sites siteId }, true)
      else (db, false)

-- Concrete fixtures used to instantiate the claims.

/-- C1 fixtures: a site with one section, its client, a worker, an
in-progress task over that section (all counters zero), and the records a
completion through the generic update path produces. -/
def taskC1 : Task :=
  { id := 4, site := 1, client := 7, worker := some 5,
    status := .inProgress, sections := [2] }

def siteC1 : Site :=
  { id := 1, client := 7, sections := [{ id := 2, name := "lawn" }] }

def dbC1 : DB :=
  { tasks := [taskC1]
    sites := [siteC1]
    clients := [{ id := 7 }]
    users := [{ id := 5, role := .worker }] }

def updatedC1 : Task :=
  { taskC1 with status := .completed, completedAt := some 1000 }

def stampedSiteC1 : Site :=
  { id := 1, client := 7,
    sections := [{ id := 2, name := "lawn", lastTaskStatus := some .completed,
                   lastTaskDate := some 1000, lastTaskId := some 4 }],
    completedTasks := 1, lastVisit := some 1000 }

/-- C2 fixtures: an unassigned task with two materials; the first material
fits the stock of item 11, the second exceeds the stock of item 12. -/
def taskC2 : Task :=
  { id := 4, site := 1, client := 7, worker := none,
    status := .pending,
    materials := [{ item := some 11, quantity := 5 },
                  { item := some 12, quantity := 5 }] }

def dbC2 : DB :=
  { tasks := [taskC2]
    inventory := [{ id := 11, name := "sand", current := 10, minimum := 0 },
                  { id := 12, name := "rock", current := 1, minimum := 0 }] }

/-- The C2 database after the aborted assignment: item 11's deduction is
committed, item 12 is untouched, the task is unchanged. -/
def dbC2after : DB :=
  { tasks := [taskC2]
    inventory := [{ id := 11, name := "sand", current := 5, minimum := 0 },
                  { id := 12, name := "rock", current := 1, minimum := 0 }] }

/-- C3 fixtures: a site whose stored section order is `[B, A]`, each section
carrying one reference image; a creation request listing section A (id 3)
first and B (id 2) second; and the task the creation stores. -/
def siteC3 : Site :=
  { id := 1, client := 7,
    sections := [
      { id := 2, name := "B", referenceImages := [{ id := 21, url := "imgB" }] },
      { id := 3, name := "A", referenceImages := [{ id := 31, url := "imgA" }] }] }

def dbC3 : DB := { sites := [siteC3] }

def bodyC3 : CreateBody :=
  { title := "T", description := "D", site := 1, sections := [3, 2],
    client := 7, scheduledDate := 0, worker := 5 }

def taskC3 : Task :=
  Task.preSave
  { id := 4, title := "T", description := "D", site := 1, sections := [2, 3],
    client := 7, worker := some 5, status := .pending, scheduledDate := 0,
    referenceImages := [
      { url := "imgB", cloudinaryId := "", caption := "", mediaType := "image",
        format := none, duration := none, uploadedAt := 0, qtn := 1,
        description := "", originalSectionId := 2 },
      { url := "imgA", cloudinaryId := "", caption := "", mediaType := "image",
        format := none, duration := none, uploadedAt := 0, qtn := 1,
        description := "", originalSectionId := 3 }] }

def createdDbC3 : DB := { dbC3 with tasks := [taskC3] }

/-- C6 fixture: an in-progress task with `startedAt = 0` and the schema
default `actualDuration = 0`. -/
def dbC6 : DB :=
  { tasks := [{ id := 4, site := 1, client := 7, worker := some 5,
                status := .inProgress, startedAt := some 0 }] }

/-- C6 fixture: a task worked from time 0 to 3600000 ms (one hour) with
labor 3, materials 4 and a stale stored total. -/
def taskC6w : Task :=
  { id := 4, site := 1, client := 7, startedAt := some 0,
    completedAt := some 3600000,
    cost := { labor := 3, materials := 4, total := 99 } }

/-- C7 fixtures: a task with empty media slots, the attachment list an
upload of one file with no visibility value appends, and the stored task. -/
def taskC7 : Task := { id := 4, site := 1, client := 7, worker := some 5 }

def dbC7 : DB := { tasks := [taskC7] }

def appendedC7 : List Attachment :=
  [{ id := 100, url := "u", cloudinaryId := "c", thumbnail := "u",
     mediaType := "image", uploadedAt := 9, uploadedBy := 5,
     isVisibleToClient := true }]

def uploadedC7 : Task := Task.preSave (setSlot taskC7 "before" appendedC7)

/-- C4 fixtures: an in-progress task assigned to worker 5, and the record
the first completion call stores. -/
def taskC4 : Task :=
  { id := 4, site := 1, client := 7, worker := some 5, status := .inProgress }

def dbC4 : DB := { tasks := [taskC4] }

def completedC4 : Task :=
  Task.preSave { taskC4 with status := .completed, completedAt := some 1000 }

/-- C10 fixtures: a task already in status `completed`, and the record a
start call by its worker stores. -/
def taskC10 : Task :=
  { id := 4, site := 1, client := 7, worker := some 5, status := .completed }

def dbC10 : DB := { tasks := [taskC10] }

def startedC10 : Task :=
  Task.preSave
    { taskC10 with
      status := .inProgress
      startedAt := some 777
      startLocation := some ⟨⟨1, 2⟩, 777⟩ }

/-- C8 fixtures: a task whose `before` slot holds one attachment with id 1,
and the record a bulk visibility update to `true` stores. -/
def taskC8 : Task :=
  { id := 4, site := 1, client := 7, worker := some 5,
    imagesBefore := [{ id := 1, url := "u1" }] }

def dbC8 : DB := { tasks := [taskC8] }

def updatedC8 : Task :=
  Task.preSave (setSlot taskC8 "before" [{ id := 1, url := "u1", isVisibleToClient := true }])

/-- C9 fixtures: the same task in a non-completed and a completed state
(the latter already carrying a prior feedback record). -/
def taskC9pending : Task :=
  { id := 4, site := 1, client := 7, worker := some 5, status := .pending }

def taskC9completed : Task :=
  { id := 4, site := 1, client := 7, worker := some 5, status := .completed,
    feedback := some { rating := 1, comment := "old" } }

def dbC9pending : DB := { tasks := [taskC9pending] }

def dbC9completed : DB := { tasks := [taskC9completed] }

-- Basic lookup/update lemmas.

theorem findById_eq_id {α : Type} (getId : α → Id) (l : List α) (i : Id) (x : α)
    (h : findById getId l i = some x) : getId x = i := by
  induction l with
  | nil => simp [findById] at h
  | cons y ys ih =>
    by_cases hy : getId y = i
    · simp [findById, hy] at h
      subst h
      exact hy
    · simp [findById, hy] at h
      exact ih h

theorem findById_setById {α : Type} (getId : α → Id) (f : α → α) (l : List α) (i : Id)
    (hf : ∀ x, getId (f x) = getId x) :
    findById getId (setById getId f l i) i = (findById getId l i).map f := by
  induction l with
  | nil => simp [findById, setById]
  | cons y ys ih =>
    by_cases hy : getId y = i
    · simp [findById, setById, hy, hf]
    · simp [findById, setById, hy, hf]
      exact ih

theorem findById_setById_const {α : Type} (getId : α → Id) (y : α) (l : List α)
    (i : Id) (x : α) (hy : getId y = i) (h : findById getId l i = some x) :
    findById getId (setById getId (fun _ => y) l i) i = some y := by
  induction l with
  | nil => simp [findById] at h
  | cons z zs ih =>
    by_cases hz : getId z = i
    · simp [findById, setById, hz, hy]
    · simp [findById, setById, hz, hy] at h ⊢
      exact ih h

theorem findById_setById_other {α : Type} (getId : α → Id) (f : α → α) (l : List α)
    (i j : Id) (hij : i ≠ j) (hf : ∀ x, getId (f x) = getId x) :
    findById getId (setById getId f l i) j = findById getId l j := by
  induction l with
  | nil => simp [findById, setById]
  | cons y ys ih =>
    simp only [setById, List.map_cons] at ih ⊢
    by_cases hy : getId y = i
    · rw [if_pos hy]
      have h1 : getId (f y) ≠ j := by rw [hf, hy]; exact hij
      have h2 : getId y ≠ j := hy ▸ hij
      simp only [findById, if_neg h1, if_neg h2]
      exact ih
    · rw [if_neg hy]
      simp only [findById]
      by_cases hyj : getId y = j
      · rw [if_pos hyj, if_pos hyj]
      · rw [if_neg hyj, if_neg hyj]
        exact ih

-- Projection lemmas for the pre-save hook (it only rewrites
-- `actualDuration` and `cost`).

@[simp] theorem preSave_id (t : Task) : (Task.preSave t).id = t.id := rfl
@[simp] theorem preSave_worker (t : Task) : (Task.preSave t).worker = t.worker := rfl
@[simp] theorem preSave_status (t : Task) : (Task.preSave t).status = t.status := rfl
@[simp] theorem preSave_client (t : Task) : (Task.preSave t).client = t.client := rfl
@[simp] theorem preSave_site (t : Task) : (Task.preSave t).site = t.site := rfl
@[simp] theorem preSave_sections (t : Task) : (Task.preSave t).sections = t.sections := rfl
@[simp] theorem preSave_startedAt (t : Task) : (Task.preSave t).startedAt = t.startedAt := rfl
@[simp] theorem preSave_completedAt (t : Task) : (Task.preSave t).completedAt = t.completedAt := rfl
@[simp] theorem preSave_feedback (t : Task) : (Task.preSave t).feedback = t.feedback := rfl
@[simp] theorem preSave_imagesBefore (t : Task) : (Task.preSave t).imagesBefore = t.imagesBefore := rfl
@[simp] theorem preSave_imagesAfter (t : Task) : (Task.preSave t).imagesAfter = t.imagesAfter := rfl
@[simp] theorem preSave_referenceImages (t : Task) :
    (Task.preSave t).referenceImages = t.referenceImages := rfl
@[simp] theorem preSave_startLocation (t : Task) :
    (Task.preSave t).startLocation = t.startLocation := rfl

-- Slot access lemmas.

theorem getSlot_preSave (t : Task) (ty : String) :
    getSlot (Task.preSave t) ty = getSlot t ty := by
  unfold getSlot
  by_cases h1 : ty = "before" <;> by_cases h2 : ty = "after" <;>
    simp [h1, h2]

theorem getSlot_setSlot (t : Task) (ty : String) (l : List Attachment)
    (h : (getSlot t ty).isSome) : getSlot (setSlot t ty l) ty = some l := by
  unfold getSlot setSlot at *
  by_cases h1 : ty = "before"
  · simp [h1]
  · by_cases h2 : ty = "after" <;> simp [h1, h2] at h ⊢

theorem setSlot_id (t : Task) (ty : String) (l : List Attachment) :
    (setSlot t ty l).id = t.id := by
  unfold setSlot
  by_cases h1 : ty = "before" <;> by_cases h2 : ty = "after" <;> simp [h1, h2]

theorem setSlot_feedback (t : Task) (ty : String) (l : List Attachment) :
    (setSlot t ty l).feedback = t.feedback := by
  unfold setSlot
  by_cases h1 : ty = "before" <;> by_cases h2 : ty = "after" <;> simp [h1, h2]

/-- Success shape of `completeTask`: when the task exists, the caller is
its assigned worker and it is not yet completed, the task is saved with
status `completed` and nothing else in the database changes. -/
theorem completeTask_ok (db : DB) (u : Principal) (tid : Id) (t : Task)
    (gps : Option Coord) (now : Int)
    (ht : findById Task.id db.tasks tid = some t)
    (hw : t.worker = some u.id)
    (hs : t.status ≠ TaskStatus.completed) :
    ∃ t', completeTask db u tid gps now = (db.putTask tid t', .ok t') ∧
      t'.id = t.id ∧ t'.worker = t.worker ∧ t'.status = TaskStatus.completed ∧
      t'.completedAt = some now := by
  refine ⟨Task.preSave { t with
      status := TaskStatus.completed
      completedAt := some now
      endLocation :=
        match gps with
        | some c => some { coordinates := c, timestamp := now }
        | none => t.endLocation }, ?_, by simp, by simp, by simp, by simp⟩
  unfold completeTask
  rw [ht]
  dsimp only
  rw [hw]
  dsimp only
  rw [if_neg (by simp), if_neg hs]

/-- Success shape of `startTask`: when the task exists and the caller is
its assigned worker — with no condition on the current status — the task
is saved with status `in-progress` and a fresh `startedAt`. -/
theorem startTask_ok (db : DB) (u : Principal) (tid : Id) (t : Task)
    (gps : Option Coord) (now : Int)
    (ht : findById Task.id db.tasks tid = some t)
    (hw : t.worker = some u.id) :
    ∃ t', startTask db u tid gps now = (db.putTask tid t', .ok t') ∧
      t'.id = t.id ∧ t'.status = TaskStatus.inProgress ∧
      t'.startedAt = some now ∧
      (∀ c, gps = some c → t'.startLocation = some ⟨c, now⟩) := by
  refine ⟨Task.preSave { t with
      status := TaskStatus.inProgress
      startedAt := some now
      startLocation :=
        match gps with
        | some c => some { coordinates := c, timestamp := now }
        | none => t.startLocation }, ?_, by simp, by simp, by simp, ?_⟩
  · unfold startTask
    rw [ht]
    dsimp only
    rw [hw]
    dsimp only
    rw [if_neg (by simp)]
  · intro c hc
    subst hc
    simp

/-- C4: a first successful completion by the assigned worker is followed,
on a second identical call, by the 400 `"Task already completed"` rejection
(the Conflict case of the error taxonomy), which returns the database
unchanged — the task and every counter stay as the first call left them. -/
theorem complete_twice_conflict (db : DB) (tid w : Id) (t : Task)
    (gps1 gps2 : Option Coord) (n1 n2 : Int) (db1 : DB) (r1 : Except ApiError Task)
    (ht : findById Task.id db.tasks tid = some t)
    (hw : t.worker = some w)
    (hs : t.status ≠ TaskStatus.completed)
    (hrun : completeTask db ⟨w, Role.worker⟩ tid gps1 n1 = (db1, r1)) :
    (∃ t1, r1 = .ok t1) ∧
    completeTask db1 ⟨w, Role.worker⟩ tid gps2 n2 =
      (db1, .error (.badRequest "Task already completed")) := by
  have htid : t.id = tid := findById_eq_id _ _ _ _ ht
  obtain ⟨t', heq, hid, hw', hst', _⟩ :=
    completeTask_ok db ⟨w, Role.worker⟩ tid t gps1 n1 ht hw hs
  rw [heq, Prod.mk.injEq] at hrun
  obtain ⟨hdb1, hr1⟩ := hrun
  refine ⟨⟨_, hr1.symm⟩, ?_⟩
  have hfind : findById Task.id db1.tasks tid = some t' := by
    rw [← hdb1]
    exact findById_setById_const _ _ _ _ _ (hid.trans htid) ht
  unfold completeTask
  rw [hfind]
  dsimp only
  rw [hw'.trans hw]
  dsimp only
  rw [if_neg (by simp), if_pos hst']

/-- C4 witness: a concrete in-progress task completed twice by its worker —
the first call stores the completed record, the second is rejected with the
database unchanged. -/
theorem complete_twice_conflict_witness :
    (completeTask dbC4 ⟨5, Role.worker⟩ 4 none 1000).2 = .ok completedC4 ∧
    completeTask (completeTask dbC4 ⟨5, Role.worker⟩ 4 none 1000).1
      ⟨5, Role.worker⟩ 4 none 2000 =
      ((completeTask dbC4 ⟨5, Role.worker⟩ 4 none 1000).1,
       .error (.badRequest "Task already completed")) := by
  obtain ⟨⟨t1, h1⟩, h2⟩ := complete_twice_conflict dbC4 4 5 taskC4
    none none 1000 2000 _ _ rfl rfl (by decide) rfl
  exact ⟨by rfl, h2⟩

/-- C10: `startTask` never inspects the current status — for any task with
an assigned worker, a start call by that worker succeeds from any status,
setting `status = "in-progress"`, overwriting `startedAt`, and recording
the GPS fix when coordinates are supplied. -/
theorem start_ignores_status (db : DB) (tid w : Id) (u : Principal) (t : Task)
    (gps : Option Coord) (now : Int) (db' : DB) (r : Except ApiError Task)
    (ht : findById Task.id db.tasks tid = some t)
    (hw : t.worker = some w)
    (hu : u.id = w)
    (hrun : startTask db u tid gps now = (db', r)) :
    ∃ t', r = .ok t' ∧ t'.status = TaskStatus.inProgress ∧
      t'.startedAt = some now ∧
      (∀ c, gps = some c → t'.startLocation = some ⟨c, now⟩) ∧
      findById Task.id db'.tasks tid = some t' := by
  have htid : t.id = tid := findById_eq_id _ _ _ _ ht
  obtain ⟨t', heq, hid, hst, hstart, hloc⟩ :=
    startTask_ok db u tid t gps now ht (hu ▸ hw)
  rw [heq, Prod.mk.injEq] at hrun
  obtain ⟨hdb', hr⟩ := hrun
  refine ⟨_, hr.symm, hst, hstart, hloc, ?_⟩
  rw [← hdb']
  exact findById_setById_const _ _ _ _ _ (hid.trans htid) ht

/-- C10 witness: the worker starts a task whose status is `completed`,
and the call still succeeds and moves it to `in-progress`. -/
theorem start_ignores_status_witness :
    (startTask dbC10 ⟨5, Role.worker⟩ 4 (some ⟨1, 2⟩) 777).2 = .ok startedC10 ∧
    startedC10.status = TaskStatus.inProgress ∧
    startedC10.startedAt = some 777 ∧
    startedC10.startLocation = some ⟨⟨1, 2⟩, 777⟩ ∧
    findById Task.id
      (startTask dbC10 ⟨5, Role.worker⟩ 4 (some ⟨1, 2⟩) 777).1.tasks 4 =
      some startedC10 := by
  obtain ⟨t', h1, h2, h3, h4, h5⟩ := start_ignores_status dbC10 4 5 ⟨5, Role.worker⟩
    taskC10 (some ⟨1, 2⟩) 777 _ _ rfl rfl rfl rfl
  have hx : Except.ok t' = Except.ok startedC10 := h1.symm.trans (by rfl)
  injection hx with hx
  subst hx
  exact ⟨by rfl, h2, h3, h4 ⟨1, 2⟩ rfl, h5⟩

/-- C5: deducting `q` from an item with stock `c` succeeds with
`current = c - q` when `q ≤ c` and fails with `'Insufficient stock'` and no
state change when `q > c`. -/
theorem deduct_spec (it : InventoryItem) (q : Int) :
    (q ≤ it.current → it.deduct q = .ok { it with current := it.current - q }) ∧
    (it.current < q → it.deduct q = .error "Insufficient stock") := by
  constructor
  · intro h
    simp [InventoryItem.deduct, not_lt.mpr h]
  · intro h
    simp [InventoryItem.deduct, h]

/-- C5 witness: a concrete item with stock 10 at requests 3 and 11. -/
theorem deduct_spec_witness :
    ((3 : Int) ≤ (10 : Int) ∧
      InventoryItem.deduct ⟨1, "sand", 10, 2⟩ 3 = .ok ⟨1, "sand", 7, 2⟩) ∧
    ((10 : Int) < (11 : Int) ∧
      InventoryItem.deduct ⟨1, "sand", 10, 2⟩ 11 = .error "Insufficient stock") := by
  refine ⟨⟨by norm_num, ?_⟩, ⟨by norm_num, ?_⟩⟩
  · exact (deduct_spec ⟨1, "sand", 10, 2⟩ 3).1 (by norm_num)
  · exact (deduct_spec ⟨1, "sand", 10, 2⟩ 11).2 (by norm_num)

/-- C8: bulk visibility update sets the flag to the supplied value for
exactly the attachments whose id is in the list, silently ignores ids with
no matching attachment, and reports the number actually matched. -/
theorem bulk_visibility_spec (db : DB) (tid : Id) (imageIds : List Id)
    (imageType : String) (isVisible : Bool) (t : Task) (arr : List Attachment)
    (db' : DB) (r : Except ApiError Nat)
    (ht : findById Task.id db.tasks tid = some t)
    (harr : getSlot t imageType = some arr)
    (hrun : bulkUpdateImageVisibility db tid imageIds imageType isVisible = (db', r)) :
    r = .ok (arr.filter fun img => imageIds.contains img.id).length ∧
    ∃ t', findById Task.id db'.tasks tid = some t' ∧
      getSlot t' imageType = some (arr.map fun img =>
        if imageIds.contains img.id then { img with isVisibleToClient := isVisible }
        else img) := by
  have htid : t.id = tid := findById_eq_id _ _ _ _ ht
  unfold bulkUpdateImageVisibility at hrun
  rw [ht] at hrun
  dsimp only at hrun
  rw [harr] at hrun
  dsimp only at hrun
  rw [Prod.mk.injEq] at hrun
  obtain ⟨hdb', hr⟩ := hrun
  refine ⟨hr.symm, Task.preSave (setSlot t imageType (arr.map fun img =>
    if imageIds.contains img.id then { img with isVisibleToClient := isVisible }
    else img)), ?_, ?_⟩
  · rw [← hdb']
    refine findById_setById_const _ _ _ _ _ ?_ ht
    rw [preSave_id, setSlot_id, htid]
  · rw [getSlot_preSave]
    exact getSlot_setSlot _ _ _ (by rw [harr]; rfl)

/-- C8 witness: one valid id (1) plus one non-existent id (99) yields
`updatedCount = 1`, with exactly the matching attachment flipped. -/
theorem bulk_visibility_spec_witness :
    (bulkUpdateImageVisibility dbC8 4 [1, 99] "before" true).2 = .ok 1 ∧
    findById Task.id (bulkUpdateImageVisibility dbC8 4 [1, 99] "before" true).1.tasks 4
      = some updatedC8 ∧
    getSlot updatedC8 "before" =
      some [{ id := 1, url := "u1", isVisibleToClient := true }] := by
  obtain ⟨h1, t', h2, h3⟩ := bulk_visibility_spec dbC8 4 [1, 99] "before" true
    taskC8 [{ id := 1, url := "u1" }] _ _ rfl rfl rfl
  have hx : some t' = some updatedC8 := h2.symm.trans (by rfl)
  injection hx with hx
  subst hx
  exact ⟨h1.trans rfl, h2, h3.trans (by rfl)⟩

/-- C9: with the task found, a non-completed status makes both feedback
entry points fail with the 400 validation error and leave the database
(hence `task.feedback`) untouched; with status `completed` and the caller
(when of role client) being the task's client, both succeed and overwrite
any prior feedback, so a single feedback record is retained. -/
theorem feedback_gating (db : DB) (user : Principal) (tid : Id) (t : Task)
    (body : FeedbackBody) (now : Int)
    (ht : findById Task.id db.tasks tid = some t) :
    (t.status ≠ TaskStatus.completed →
      submitFeedback db user tid body now =
        (db, .error (.badRequest "Can only provide feedback for completed tasks")) ∧
      markSatisfied db user tid now =
        (db, .error (.badRequest "Can only mark satisfaction for completed tasks"))) ∧
    (t.status = TaskStatus.completed → (user.role = Role.client → t.client = user.id) →
      (∃ db' fb, submitFeedback db user tid body now = (db', .ok fb) ∧
        findById Task.id db'.tasks tid =
          some (Task.preSave { t with feedback := some fb })) ∧
      (∃ db' fb, markSatisfied db user tid now = (db', .ok fb) ∧
        fb.rating = 5 ∧ fb.isSatisfiedOnly = true ∧
        findById Task.id db'.tasks tid =
          some (Task.preSave { t with feedback := some fb }))) := by
  have htid : t.id = tid := findById_eq_id _ _ _ _ ht
  constructor
  · intro hne
    constructor
    · unfold submitFeedback
      rw [ht]
      dsimp only
      rw [if_pos hne]
    · unfold markSatisfied
      rw [ht]
      dsimp only
      rw [if_pos hne]
  · intro hcomp hauth
    have hnauth : ¬ (user.role = Role.client ∧ t.client ≠ user.id) := by
      rintro ⟨h1, h2⟩
      exact h2 (hauth h1)
    constructor
    · have heq : submitFeedback db user tid body now =
          (db.putTask tid (Task.preSave { t with feedback := some (mkFeedback body now) }),
            .ok (mkFeedback body now)) := by
        unfold submitFeedback
        rw [ht]
        dsimp only
        rw [if_neg (by simp [hcomp]), if_neg hnauth]
      exact ⟨_, _, heq, findById_setById_const _ _ _ _ _ (by simp [htid]) ht⟩
    · have heq : markSatisfied db user tid now =
          (db.putTask tid (Task.preSave { t with feedback := some (satisfiedFeedback now) }),
            .ok (satisfiedFeedback now)) := by
        unfold markSatisfied
        rw [ht]
        dsimp only
        rw [if_neg (by simp [hcomp]), if_neg hnauth]
      exact ⟨_, _, heq, rfl, rfl,
        findById_setById_const _ _ _ _ _ (by simp [htid]) ht⟩

/-- C9 witness: a pending task rejects both entry points with the database
unchanged; a completed task with prior feedback accepts both from its
client, overwriting the old record. -/
theorem feedback_gating_witness :
    (submitFeedback dbC9pending ⟨7, Role.client⟩ 4 { rating := 4 } 100 =
        (dbC9pending, .error (.badRequest "Can only provide feedback for completed tasks")) ∧
      markSatisfied dbC9pending ⟨7, Role.client⟩ 4 100 =
        (dbC9pending, .error (.badRequest "Can only mark satisfaction for completed tasks"))) ∧
    ((submitFeedback dbC9completed ⟨7, Role.client⟩ 4 { rating := 4 } 100).2 =
        .ok (mkFeedback { rating := 4 } 100) ∧
      findById Task.id
          (submitFeedback dbC9completed ⟨7, Role.client⟩ 4 { rating := 4 } 100).1.tasks 4 =
        some (Task.preSave { taskC9completed with
          feedback := some (mkFeedback { rating := 4 } 100) })) ∧
    ((markSatisfied dbC9completed ⟨7, Role.client⟩ 4 100).2 =
        .ok (satisfiedFeedback 100) ∧
      (satisfiedFeedback 100).rating = 5 ∧
      (satisfiedFeedback 100).isSatisfiedOnly = true ∧
      findById Task.id (markSatisfied dbC9completed ⟨7, Role.client⟩ 4 100).1.tasks 4 =
        some (Task.preSave { taskC9completed with
          feedback := some (satisfiedFeedback 100) })) := by
  obtain ⟨hsub, hsat⟩ := (feedback_gating dbC9completed ⟨7, Role.client⟩ 4 taskC9completed
      { rating := 4 } 100 rfl).2 rfl (fun _ => rfl)
  obtain ⟨db1, fb1, heq1, hfind1⟩ := hsub
  obtain ⟨db2, fb2, heq2, _, _, hfind2⟩ := hsat
  have hx1 : (db1, Except.ok fb1) =
      ((submitFeedback dbC9completed ⟨7, Role.client⟩ 4 { rating := 4 } 100).1,
        Except.ok (mkFeedback { rating := 4 } 100)) := heq1.symm.trans (by rfl)
  have hx2 : (db2, Except.ok fb2) =
      ((markSatisfied dbC9completed ⟨7, Role.client⟩ 4 100).1,
        Except.ok (satisfiedFeedback 100)) := heq2.symm.trans (by rfl)
  rw [Prod.mk.injEq] at hx1 hx2
  obtain ⟨hd1, hf1⟩ := hx1
  obtain ⟨hd2, hf2⟩ := hx2
  injection hf1 with hf1
  injection hf2 with hf2
  subst hd1 hf1 hd2 hf2
  refine ⟨(feedback_gating dbC9pending ⟨7, Role.client⟩ 4 taskC9pending
      { rating := 4 } 100 rfl).1 (by decide), ⟨by rfl, hfind1⟩, ⟨by rfl, rfl, rfl, hfind2⟩⟩

/-- C6 (amended): every save()-path persist runs the pre-save hook, after
which `cost.total = cost.labor + cost.materials` always holds and, whenever
both timestamps are present, `actualDuration` equals the elapsed time in
hours rounded to two decimals. (The generic update path persists through
`findByIdAndUpdate` and runs no hook — see the counterexample.) -/
theorem save_invariants (t : Task) :
    (Task.preSave t).cost.total =
      (Task.preSave t).cost.labor + (Task.preSave t).cost.materials ∧
    (∀ s c, t.startedAt = some s → t.completedAt = some c →
      (Task.preSave t).actualDuration =
        (jsRound ((((c - s : Int)) : ℚ) / (1000 * 60 * 60) * 100) : ℚ) / 100) := by
  refine ⟨rfl, ?_⟩
  intro s c hs hc
  simp [Task.preSave, hs, hc]

/-- C6 witness: a task worked from time 0 to 3600000 ms (one hour) with
labor 3 and materials 4 gets `actualDuration = 1` and `cost.total = 7`
after the hook runs. -/
theorem save_invariants_witness :
    (Task.preSave taskC6w).cost.total =
      (Task.preSave taskC6w).cost.labor + (Task.preSave taskC6w).cost.materials ∧
    (Task.preSave taskC6w).actualDuration = 1 := by
  obtain ⟨h1, h2⟩ := save_invariants taskC6w
  exact ⟨h1, (h2 0 3600000 rfl rfl).trans (by norm_num [jsRound])⟩

/-- C7 (amended): a media upload with no explicit visibility value appends
one attachment per file, each with `isVisibleToClient = true` (the
handler's parameter default), onto the end of the named slot. -/
theorem upload_default_visible (db : DB) (user : Principal) (tid : Id) (t : Task)
    (imageType : String) (files : List FileUpload) (nextId : Id) (now : Int)
    (db' : DB) (r : Except ApiError Task)
    (ht : findById Task.id db.tasks tid = some t)
    (hauth : ¬ (user.role = Role.worker ∧ t.worker ≠ some user.id))
    (hty : imageType = "before" ∨ imageType = "after")
    (hne : files ≠ [])
    (hrun : uploadTaskImages db user tid imageType none files nextId now = (db', r)) :
    ∃ t' appended, r = .ok t' ∧
      getSlot t' imageType = some ((getSlot t imageType).getD [] ++ appended) ∧
      appended.length = files.length ∧
      ∀ a ∈ appended, a.isVisibleToClient = true := by
  unfold uploadTaskImages at hrun
  rw [ht] at hrun
  dsimp only at hrun
  rw [if_neg hauth, if_neg (not_not.mpr hty), if_neg (by simpa using hne)] at hrun
  rw [Prod.mk.injEq] at hrun
  obtain ⟨hdb', hr⟩ := hrun
  refine ⟨Task.preSave (setSlot t imageType ((getSlot t imageType).getD [] ++
      files.enum.map fun f =>
        ({ id := nextId + f.1
           url := f.2.url
           cloudinaryId := f.2.cloudinaryId
           thumbnail := f.2.url
           mediaType := f.2.resourceType
           format := f.2.format
           duration := jsOrNullInt f.2.duration
           uploadedAt := now
           uploadedBy := user.id
           isVisibleToClient := visValue none } : Attachment))),
    files.enum.map fun f =>
        ({ id := nextId + f.1
           url := f.2.url
           cloudinaryId := f.2.cloudinaryId
           thumbnail := f.2.url
           mediaType := f.2.resourceType
           format := f.2.format
           duration := jsOrNullInt f.2.duration
           uploadedAt := now
           uploadedBy := user.id
           isVisibleToClient := visValue none } : Attachment),
    hr.symm, ?_, by simp, ?_⟩
  · rw [getSlot_preSave]
    refine getSlot_setSlot _ _ _ ?_
    rcases hty with h | h <;> simp [getSlot, h]
  · intro a ha
    obtain ⟨f, _, hEq⟩ := List.mem_map.mp ha
    rw [← hEq]
    rfl

/-- C7 (amended) witness: one file uploaded with no visibility value lands
with `isVisibleToClient = true`. -/
theorem upload_default_visible_witness :
    (uploadTaskImages dbC7 ⟨5, Role.worker⟩ 4 "before" none
      [{ url := "u", cloudinaryId := "c", resourceType := "image" }] 100 9).2 =
      .ok uploadedC7 ∧
    getSlot uploadedC7 "before" = some appendedC7 ∧
    appendedC7.length = 1 ∧
    appendedC7.all (fun a => a.isVisibleToClient) = true := by
  obtain ⟨t', appended, h1, h2, h3, h4⟩ := upload_default_visible dbC7 ⟨5, Role.worker⟩ 4
    taskC7 "before"
    [{ url := "u", cloudinaryId := "c", resourceType := "image" }] 100 9 _ _
    rfl (by decide) (Or.inl rfl) (by decide) rfl
  have hx : Except.ok t' = Except.ok uploadedC7 := h1.symm.trans (by rfl)
  injection hx with hx
  subst hx
  exact ⟨h1.symm.trans (by rfl) ▸ by rfl, by rfl, rfl, by decide⟩

-- The inventory loop of the assignment transition.

theorem deduct_error_msg (it : InventoryItem) (q : Int) (e : String)
    (h : it.deduct q = .error e) : e = "Insufficient stock" := by
  unfold InventoryItem.deduct at h
  split at h
  · cases h
    rfl
  · simp at h

theorem deductMaterials_err (db : DB) (ms : List Material) (db1 : DB) (msg : String)
    (h : deductMaterials db ms = (db1, some msg)) : msg = "Insufficient stock" := by
  induction ms generalizing db with
  | nil => simp [deductMaterials] at h
  | cons m rest ih =>
    unfold deductMaterials at h
    cases hm : m.item with
    | none =>
      rw [hm] at h
      dsimp only at h
      exact ih db h
    | some itemId =>
      rw [hm] at h
      dsimp only at h
      cases hf : findById InventoryItem.id db.inventory itemId with
      | none =>
        rw [hf] at h
        dsimp only at h
        exact ih db h
      | some it =>
        rw [hf] at h
        dsimp only at h
        cases hd : it.deduct m.quantity with
        | error e =>
          rw [hd] at h
          dsimp only at h
          rw [Prod.mk.injEq] at h
          obtain ⟨-, h2⟩ := h
          injection h2 with h2
          rw [← h2]
          exact deduct_error_msg it m.quantity e hd
        | ok it' =>
          rw [hd] at h
          dsimp only at h
          exact ih _ h

theorem deductMaterials_tasks (db : DB) (ms : List Material) :
    (deductMaterials db ms).1.tasks = db.tasks := by
  induction ms generalizing db with
  | nil => rfl
  | cons m rest ih =>
    unfold deductMaterials
    cases m.item with
    | none => exact ih db
    | some itemId =>
      dsimp only
      cases findById InventoryItem.id db.inventory itemId with
      | none => exact ih db
      | some it =>
        dsimp only
        cases it.deduct m.quantity with
        | error e => rfl
        | ok it' => exact ih _

/-- C2 (amended): when the first-assignment inventory loop hits a material
whose quantity exceeds its item's stock, `updateTask` aborts — the stored
tasks are untouched, so no status transition happens — and surfaces the
bare 500 `'Insufficient stock'` error (which names no item); the database
it leaves behind is exactly the loop's output, in which deductions already
performed for earlier materials remain committed. -/
theorem assign_insufficient_abort (db : DB) (user : Principal) (tid : Id) (t : Task)
    (body : UpdateBody) (now : Int) (db1 : DB) (msg : String)
    (ht : findById Task.id db.tasks tid = some t)
    (hrole : user.role ≠ Role.worker)
    (hbw : body.worker.isSome)
    (hw : t.worker = none)
    (hd : deductMaterials db t.materials = (db1, some msg)) :
    updateTask db user tid body now = (db1, .error (.serverError "Insufficient stock")) ∧
    db1.tasks = db.tasks := by
  have hmsg := deductMaterials_err db t.materials db1 msg hd
  subst hmsg
  constructor
  · unfold updateTask
    rw [ht]
    dsimp only
    rw [if_neg (by rintro ⟨h1, -⟩; exact hrole h1)]
    rw [if_pos ⟨hbw, hw⟩]
    rw [hd]
  · have h1 : (deductMaterials db t.materials).1 = db1 := by rw [hd]
    rw [← h1]
    exact deductMaterials_tasks db t.materials

/-- C2 (amended) witness: the concrete two-material assignment aborts with
the bare insufficient-stock error, the task list untouched, item 11's
deduction committed. -/
theorem assign_insufficient_abort_witness :
    updateTask dbC2 ⟨9, Role.admin⟩ 4 { worker := some 5 } 1000 =
      (dbC2after, .error (.serverError "Insufficient stock")) ∧
    dbC2after.tasks = dbC2.tasks := by
  exact assign_insufficient_abort dbC2 ⟨9, Role.admin⟩ 4 taskC2
    { worker := some 5 } 1000 dbC2after "Insufficient stock"
    rfl (by decide) rfl rfl rfl

theorem deleteSectionImage_tasks (db : DB) (sId scId imgId : Id) :
    (deleteSectionImage db sId scId imgId).1.tasks = db.tasks := by
  unfold deleteSectionImage
  cases findById Site.id db.sites sId with
  | none => rfl
  | some site =>
    dsimp only
    cases findById Section.id site.sections scId with
    | none => rfl
    | some sec0 =>
      dsimp only
      by_cases h3 : sec0.referenceImages.any (fun img => img.id = imgId)
      · rw [if_pos h3]
      · rw [if_neg h3]

/-- C3 (amended): on a successful creation the task's reference-image
snapshot is the concatenation, in the order the sections appear in the
site's stored list, of each selected section's reference images, each
copied and tagged with its originating section id; and deleting a
section's reference image afterwards (the repository's mutator for section
media) leaves the stored tasks — hence the snapshot — untouched. -/
theorem snapshot_spec (db : DB) (body : CreateBody) (site : Site) (nid : Id)
    (db' : DB) (t : Task)
    (hsite : findById Site.id db.sites body.site = some site)
    (hvalid : ∀ sid ∈ body.sections, ∃ sec ∈ site.sections, sec.id = sid)
    (hrun : createTask db body nid = (db', .ok t)) :
    t.referenceImages =
      (site.sections.filter fun sec => body.sections.contains sec.id).flatMap
        (fun sec => sec.referenceImages.map (copyRefImage sec.id)) ∧
    ∀ sId scId imgId,
      findById Task.id (deleteSectionImage db' sId scId imgId).1.tasks t.id =
        findById Task.id db'.tasks t.id := by
  refine ⟨?_, fun sId scId imgId => by rw [deleteSectionImage_tasks]⟩
  unfold createTask at hrun
  rw [hsite] at hrun
  dsimp only at hrun
  by_cases htitle : body.title = "" ∨ body.description = ""
  · rw [if_pos htitle] at hrun
    rw [Prod.mk.injEq] at hrun
    exact absurd hrun.2 (by simp)
  rw [if_neg htitle] at hrun
  have hinv : body.sections.filter
      (fun sid => ¬ site.sections.any (fun sec => sec.id = sid)) = [] := by
    rw [List.filter_eq_nil_iff]
    intro sid hsid
    simp only [List.any_eq_true, decide_eq_true_eq, not_not]
    exact hvalid sid hsid
  rw [hinv] at hrun
  rw [if_neg (by simp)] at hrun
  rw [Prod.mk.injEq] at hrun
  obtain ⟨-, hok⟩ := hrun
  injection hok with hok
  rw [← hok]
  rfl

/-- C3 (amended) witness: the concrete creation stores the snapshot in site
order (`imgB` before `imgA`), and deleting section B's reference image from
the site afterwards leaves the stored task untouched. -/
theorem snapshot_spec_witness :
    createTask dbC3 bodyC3 4 = (createdDbC3, .ok taskC3) ∧
    taskC3.referenceImages =
      (siteC3.sections.filter fun sec => bodyC3.sections.contains sec.id).flatMap
        (fun sec => sec.referenceImages.map (copyRefImage sec.id)) ∧
    findById Task.id (deleteSectionImage createdDbC3 1 2 21).1.tasks 4 =
      findById Task.id createdDbC3.tasks 4 := by
  obtain ⟨h1, h2⟩ := snapshot_spec dbC3 bodyC3 siteC3 4 createdDbC3 taskC3
    rfl (by decide) rfl
  exact ⟨rfl, h1, h2 1 2 21⟩

-- The section-stamping loop of the completion/rejection cascades.

theorem foldl_stamp_fields (st : TaskStatus) (tid : Id) (now : Int)
    (sids : List Id) (s : Site) :
    (sids.foldl (fun a sid => updateSectionLastTask a sid st tid now) s).id = s.id ∧
    (sids.foldl (fun a sid => updateSectionLastTask a sid st tid now) s).completedTasks
      = s.completedTasks ∧
    (sids.foldl (fun a sid => updateSectionLastTask a sid st tid now) s).lastVisit
      = s.lastVisit := by
  induction sids generalizing s with
  | nil => exact ⟨rfl, rfl, rfl⟩
  | cons x xs ih => exact ih (updateSectionLastTask s x st tid now)

theorem mem_foldl_stamp_untouched (st : TaskStatus) (tid : Id) (now : Int)
    (sids : List Id) (s : Site) (sec : Section)
    (hmem : sec ∈ (sids.foldl (fun a sid => updateSectionLastTask a sid st tid now) s).sections)
    (hnot : sec.id ∉ sids) : sec ∈ s.sections := by
  induction sids generalizing s with
  | nil => exact hmem
  | cons x xs ih =>
    have hx : sec.id ≠ x := fun h => hnot (by rw [h]; exact List.mem_cons_self x xs)
    have hxs : sec.id ∉ xs := fun h => hnot (List.mem_cons_of_mem _ h)
    have h1 : sec ∈ (updateSectionLastTask s x st tid now).sections := ih _ hmem hxs
    simp only [updateSectionLastTask, setById] at h1
    obtain ⟨y, hy, hEq⟩ := List.mem_map.mp h1
    by_cases hyx : y.id = x
    · rw [if_pos hyx] at hEq
      have : sec.id = x := by rw [← hEq]; exact hyx
      exact absurd this hx
    · rw [if_neg hyx] at hEq
      rw [← hEq]
      exact hy

theorem mem_foldl_stamp_stamped (st : TaskStatus) (tid : Id) (now : Int)
    (sids : List Id) (s : Site) (sec : Section)
    (hmem : sec ∈ (sids.foldl (fun a sid => updateSectionLastTask a sid st tid now) s).sections)
    (hin : sec.id ∈ sids) :
    sec.lastTaskStatus = some st ∧ sec.lastTaskId = some tid ∧
    sec.lastTaskDate = some now := by
  induction sids generalizing s with
  | nil => cases hin
  | cons x xs ih =>
    by_cases hxs : sec.id ∈ xs
    · exact ih _ hmem hxs
    · have hx : sec.id = x := by
        rcases List.mem_cons.mp hin with h | h
        · exact h
        · exact absurd h hxs
      have h1 : sec ∈ (updateSectionLastTask s x st tid now).sections :=
        mem_foldl_stamp_untouched st tid now xs _ sec hmem hxs
      simp only [updateSectionLastTask, setById] at h1
      obtain ⟨y, hy, hEq⟩ := List.mem_map.mp h1
      by_cases hyx : y.id = x
      · rw [if_pos hyx] at hEq
        rw [← hEq]
        exact ⟨rfl, rfl, rfl⟩
      · rw [if_neg hyx] at hEq
        rw [← hEq] at hx
        exact absurd hx hyx

/-- What the completed-status block of `updateTask` does to each record:
client, worker and site counters each go up by exactly one, `lastVisit` is
stamped, and every section of the task carries the completed last-task
summary; tasks and inventory are untouched. -/
theorem completionCascade_spec (db : DB) (task : Task) (now : Int) (w : Id)
    (c : ClientRec) (u : UserRec) (s : Site)
    (hw : task.worker = some w)
    (hc : findById ClientRec.id db.clients task.client = some c)
    (hu : findById UserRec.id db.users w = some u)
    (hs : findById Site.id db.sites task.site = some s) :
    findById ClientRec.id (completionCascade db task now).clients task.client =
      some { c with completedTasks := c.completedTasks + 1 } ∧
    findById UserRec.id (completionCascade db task now).users w =
      some { u with completedTasks := u.completedTasks + 1 } ∧
    (∃ s', findById Site.id (completionCascade db task now).sites task.site = some s' ∧
      s'.completedTasks = s.completedTasks + 1 ∧ s'.lastVisit = some now ∧
      ∀ sec ∈ s'.sections, sec.id ∈ task.sections →
        sec.lastTaskStatus = some TaskStatus.completed ∧
        sec.lastTaskId = some task.id ∧ sec.lastTaskDate = some now) ∧
    (completionCascade db task now).tasks = db.tasks := by
  have hsid : s.id = task.site := findById_eq_id _ _ _ _ hs
  unfold completionCascade
  rw [hw]
  dsimp only
  have hsC : findById Site.id
      (setById Site.id
        (fun s0 => { s0 with completedTasks := s0.completedTasks + 1, lastVisit := some now })
        db.sites task.site) task.site =
      some { s with completedTasks := s.completedTasks + 1, lastVisit := some now } := by
    rw [findById_setById Site.id
      (fun s0 => { s0 with completedTasks := s0.completedTasks + 1, lastVisit := some now })
      db.sites task.site (fun x => rfl), hs]
    rfl
  rw [hsC]
  dsimp only
  refine ⟨?_, ?_, ?_, rfl⟩
  · rw [findById_setById ClientRec.id
      (fun c0 => { c0 with completedTasks := c0.completedTasks + 1 })
      db.clients task.client (fun x => rfl), hc]
    rfl
  · rw [findById_setById UserRec.id
      (fun u0 => { u0 with completedTasks := u0.completedTasks + 1 })
      db.users w (fun x => rfl), hu]
    rfl
  · refine ⟨_, findById_setById_const _ _ _ _ _ ?_ hsC, ?_, ?_, ?_⟩
    · exact ((foldl_stamp_fields TaskStatus.completed task.id now task.sections _).1).trans hsid
    · exact (foldl_stamp_fields TaskStatus.completed task.id now task.sections _).2.1
    · exact (foldl_stamp_fields TaskStatus.completed task.id now task.sections _).2.2
    · intro sec hmem hin
      exact mem_foldl_stamp_stamped TaskStatus.completed task.id now task.sections _ sec hmem hin

/-- C1 (amended): completion through the generic update path by the
assigned worker sets status `completed`, stamps `completedAt`, increments
the client's, the worker's and the site's `completedTasks` by exactly one,
sets `Site.lastVisit`, and stamps the completed last-task summary on every
section referenced by the task. (The dedicated worker completion endpoint
performs none of these side effects — see the counterexample.) -/
theorem update_complete_cascade (db : DB) (tid w : Id) (t : Task) (body : UpdateBody)
    (now : Int) (c : ClientRec) (u : UserRec) (s : Site) (db' : DB)
    (r : Except ApiError Task)
    (ht : findById Task.id db.tasks tid = some t)
    (hw : t.worker = some w)
    (hst : t.status ≠ TaskStatus.completed)
    (hbw : body.worker = none)
    (hbs : body.status = some TaskStatus.completed)
    (hc : findById ClientRec.id db.clients t.client = some c)
    (hu : findById UserRec.id db.users w = some u)
    (hs : findById Site.id db.sites t.site = some s)
    (hrun : updateTask db ⟨w, Role.worker⟩ tid body now = (db', r)) :
    ∃ t', r = .ok t' ∧ t'.status = TaskStatus.completed ∧
      t'.completedAt = some now ∧
      findById Task.id db'.tasks tid = some t' ∧
      findById ClientRec.id db'.clients t.client =
        some { c with completedTasks := c.completedTasks + 1 } ∧
      findById UserRec.id db'.users w =
        some { u with completedTasks := u.completedTasks + 1 } ∧
      ∃ s', findById Site.id db'.sites t.site = some s' ∧
        s'.completedTasks = s.completedTasks + 1 ∧ s'.lastVisit = some now ∧
        ∀ sec ∈ s'.sections, sec.id ∈ t.sections →
          sec.lastTaskStatus = some TaskStatus.completed ∧
          sec.lastTaskId = some t.id ∧ sec.lastTaskDate = some now := by
  have htid : t.id = tid := findById_eq_id _ _ _ _ ht
  obtain ⟨hcl, hus, ⟨s', hfs, hsc, hsv, hsecs⟩, htks⟩ :=
    completionCascade_spec db t now w c u s hw hc hu hs
  unfold updateTask at hrun
  rw [ht] at hrun
  dsimp only at hrun
  rw [if_neg (by simp [hw])] at hrun
  have hA : ¬ (body.worker.isSome ∧ t.worker = none) := by simp [hbw]
  simp only [if_neg hA] at hrun
  have hComp : body.status = some TaskStatus.completed ∧
      t.status ≠ TaskStatus.completed := ⟨hbs, hst⟩
  simp only [if_pos hComp] at hrun
  have hRej : ¬ (body.status = some TaskStatus.rejected ∧
      t.status ≠ TaskStatus.rejected) := by simp [hbs]
  simp only [if_neg hRej] at hrun
  rw [Prod.mk.injEq] at hrun
  obtain ⟨hdb', hr⟩ := hrun
  refine ⟨applyBody t { body with completedAt := some now }, hr.symm,
    by simp [applyBody, hbs], by simp [applyBody], ?_, ?_, ?_, s', ?_, hsc, hsv, ?_⟩
  · rw [← hdb']
    refine findById_setById_const _ _ _ _ t ?_ ?_
    · simp [applyBody, htid]
    · rw [show (completionCascade db t now).tasks = db.tasks from htks]
      exact ht
  · rw [← hdb']
    exact hcl
  · rw [← hdb']
    exact hus
  · rw [← hdb']
    exact hfs
  · intro sec hmem hin
    exact hsecs sec hmem hin

/-- C1 (amended) witness: completing the concrete task through the update
path stores the completed task and bumps all three counters to 1, stamps
the site's `lastVisit`, and stamps the section summary. -/
theorem update_complete_cascade_witness :
    (updateTask dbC1 ⟨5, Role.worker⟩ 4 { status := some .completed } 1000).2 =
      .ok updatedC1 ∧
    updatedC1.status = TaskStatus.completed ∧
    updatedC1.completedAt = some 1000 ∧
    findById Task.id
      (updateTask dbC1 ⟨5, Role.worker⟩ 4 { status := some .completed } 1000).1.tasks 4 =
      some updatedC1 ∧
    findById ClientRec.id
      (updateTask dbC1 ⟨5, Role.worker⟩ 4 { status := some .completed } 1000).1.clients 7 =
      some { id := 7, totalTasks := 0, completedTasks := 1 } ∧
    findById UserRec.id
      (updateTask dbC1 ⟨5, Role.worker⟩ 4 { status := some .completed } 1000).1.users 5 =
      some { id := 5, role := .worker, completedTasks := 1 } ∧
    findById Site.id
      (updateTask dbC1 ⟨5, Role.worker⟩ 4 { status := some .completed } 1000).1.sites 1 =
      some stampedSiteC1 ∧
    stampedSiteC1.completedTasks = 1 ∧
    stampedSiteC1.lastVisit = some 1000 ∧
    stampedSiteC1.sections.all
      (fun sec => sec.lastTaskStatus = some TaskStatus.completed ∧
        sec.lastTaskId = some 4 ∧ sec.lastTaskDate = some 1000) = true := by
  obtain ⟨t', h1, h2, h3, h4, h5, h6, s', h7, h8, h9, h10⟩ :=
    update_complete_cascade dbC1 4 5 taskC1 { status := some .completed } 1000
      { id := 7 } { id := 5, role := .worker } siteC1 _ _
      rfl rfl (by decide) rfl rfl rfl rfl rfl rfl
  have hx : Except.ok t' = Except.ok updatedC1 := h1.symm.trans (by rfl)
  injection hx with hx
  subst hx
  have hy : some s' = some stampedSiteC1 := h7.symm.trans (by rfl)
  injection hy with hy
  subst hy
  exact ⟨by rfl, h2, h3, h4, h5, h6, h7, h8, h9, by decide⟩

/-- C1 counterexample: the worker-initiated `completeTask` endpoint
succeeds on an in-progress task but increments none of the
`completedTasks` counters, does not set `Site.lastVisit`, and does not
touch any section's last-task summary — contradicting the claim that every
successful worker completion performs those side effects. -/
theorem complete_claim_counterexample :
    ((completeTask dbC1 ⟨5, Role.worker⟩ 4 none 1000).2.toOption.map Task.status
      = some TaskStatus.completed) ∧
    findById ClientRec.id (completeTask dbC1 ⟨5, Role.worker⟩ 4 none 1000).1.clients 7
      = some { id := 7, totalTasks := 0, completedTasks := 0 } ∧
    findById UserRec.id (completeTask dbC1 ⟨5, Role.worker⟩ 4 none 1000).1.users 5
      = some { id := 5, role := .worker, completedTasks := 0 } ∧
    findById Site.id (completeTask dbC1 ⟨5, Role.worker⟩ 4 none 1000).1.sites 1
      = some { id := 1, client := 7, sections := [{ id := 2, name := "lawn" }] } ∧
    (0 : Nat) ≠ 0 + 1 := by
  refine ⟨rfl, rfl, rfl, rfl, by norm_num⟩

/-- C2 counterexample: assigning the first worker with materials
`[(item 11, 5), (item 12, 5)]` against stocks `11 ↦ 10`, `12 ↦ 1` aborts
with the bare `'Insufficient stock'` error (no item name), yet item 11's
deduction stays committed (stock 5, not 10) — contradicting "no deduction
committed for any material". -/
theorem assign_deduction_counterexample :
    updateTask dbC2 ⟨9, Role.admin⟩ 4 { worker := some 5 } 1000 =
      ({ dbC2 with inventory :=
          [{ id := 11, name := "sand", current := 5, minimum := 0 },
           { id := 12, name := "rock", current := 1, minimum := 0 }] },
        .error (.serverError "Insufficient stock")) ∧
    (5 : Int) ≠ 10 := by
  refine ⟨by rfl, by norm_num⟩

/-- C3 counterexample: creating a task with requested sections `[A, B]`
(`s1 = A` with image `"imgA"`, `s2 = B` with image `"imgB"`) on a site
whose stored section order is `[B, A]` snapshots `["imgB", "imgA"]` — the
site's order, not `s1 ++ s2`. -/
theorem snapshot_order_counterexample :
    ((createTask dbC3 bodyC3 4).2.toOption.map
        (fun t => t.referenceImages.map SnapImage.url)) = some ["imgB", "imgA"] ∧
    some ["imgB", "imgA"] ≠ some ["imgA", "imgB"] := by
  refine ⟨by decide, by decide⟩

/-- C6 counterexample: completing a task through the generic update path
(`findByIdAndUpdate`, which runs no pre-save hook) leaves `actualDuration`
at 0 even though `startedAt = 0` and `completedAt = 3600000` (one hour) are
both set and the claimed invariant demands 1. -/
theorem duration_invariant_counterexample :
    ((updateTask dbC6 ⟨9, Role.admin⟩ 4 { status := some .completed } 3600000).2.toOption.map
        (fun t => (t.startedAt, t.completedAt, t.actualDuration)))
      = some (some 0, some 3600000, (0 : ℚ)) ∧
    (jsRound ((((3600000 - 0 : Int) : ℚ) / (1000 * 60 * 60)) * 100) : ℚ) / 100 = 1 ∧
    (0 : ℚ) ≠ 1 := by
  refine ⟨by decide, by norm_num [jsRound], by norm_num⟩

/-- C7 counterexample: uploading one file with no explicit visibility value
appends an attachment with `isVisibleToClient = true` (the handler's
parameter default), not the claimed hidden default `false`. -/
theorem upload_default_visibility_counterexample :
    ((uploadTaskImages dbC7 ⟨5, Role.worker⟩ 4 "before" none
        [{ url := "u", cloudinaryId := "c", resourceType := "image" }] 100 9).2.toOption.map
      (fun t => t.imagesBefore.map Attachment.isVisibleToClient)) = some [true] ∧
    some [true] ≠ some [false] := by
  refine ⟨by decide, by decide⟩

end Tilal
